import Mathlib

/-!
Shallow embedding of the spateo-viewer repository (stviewer) and proofs of
the frozen specification claims.

Source files embedded:
- stviewer/pv_pipeline/pv_actors.py (standard_tree, generate_actors_tree)
- stviewer/assets/anndata_preprocess.py (anndata_preprocess)
- stviewer/assets/dataset_manager.py (LocalFileManager)
- stviewer/static_viewer/pv_pipeline/pv_morphogenesis.py (morphogenesis)

Python exceptions are embedded with `Except PyErr`; Python dictionaries are
embedded as association lists with the helpers `dget`/`dset`; Python's
`str(n)` on a natural number is embedded as `pyStr` (decimal rendering).
-/

/-- Python exceptions relevant to the embedded code paths. -/
inductive PyErr
  | typeError
  | keyError (key : String)
  | importError (msg : String)
  | libError (msg : String)
deriving DecidableEq

/-- Dictionary read, embedding Python `d.get(k)` / `d[k]` lookups on a dict
kept as an association list in insertion order. -/
def dget {V : Type} : List (String × V) → String → Option V
  | [], _ => none
  | (k, v) :: rest, key => if k = key then some v else dget rest key

/-- Dictionary write, embedding Python `d[k] = v`: replaces the binding in
place if the key exists, otherwise appends it. -/
def dset {V : Type} : List (String × V) → String → V → List (String × V)
  | [], key, v => [(key, v)]
  | (k, w) :: rest, key, v =>
    if k = key then (k, v) :: rest else (k, w) :: dset rest key v

theorem dget_dset_self {V : Type} (d : List (String × V)) (key : String) (v : V) :
    dget (dset d key v) key = some v := by
  induction d with
  | nil => simp [dget, dset]
  | cons p rest ih =>
    obtain ⟨k, w⟩ := p
    by_cases h : k = key
    · simp [dget, dset, h]
    · simp [dget, dset, h, ih]

theorem dget_dset_ne {V : Type} (d : List (String × V)) (key k2 : String) (v : V)
    (h : k2 ≠ key) : dget (dset d key v) k2 = dget d k2 := by
  have h2 : key ≠ k2 := Ne.symm h
  induction d with
  | nil => simp [dget, dset, h2]
  | cons p rest ih =>
    obtain ⟨k, w⟩ := p
    by_cases hk : k = key
    · subst hk
      simp [dget, dset, h2]
    · simp [dget, dset, hk, ih]

/-- Decimal digit characters of a positive natural number, most significant
first, computed by structural recursion on a fuel argument (`fuel ≥ n`
suffices, and `pyStr` always calls it with `fuel = n`). -/
def pyStrAux : ℕ → ℕ → List Char
  | _, 0 => []
  | 0, _ + 1 => []
  | f + 1, n + 1 => pyStrAux f ((n + 1) / 10) ++ [Nat.digitChar ((n + 1) % 10)]

/-- Decimal string rendering of a natural number, embedding Python `str(n)`
for the nonnegative integers that appear as actor-tree ids. -/
def pyStr (n : ℕ) : String :=
  if n = 0 then ("0") else (pyStrAux n n).asString

theorem pyStrAux_eq_digits (f : ℕ) :
    ∀ n, n ≤ f → pyStrAux f n = ((Nat.digits 10 n).map Nat.digitChar).reverse := by
  induction f with
  | zero =>
    intro n hn
    interval_cases n
    simp [pyStrAux]
  | succ f ih =>
    intro n hn
    match n with
    | 0 => simp [pyStrAux]
    | n + 1 =>
      have hdiv : (n + 1) / 10 ≤ f := by
        have := Nat.div_lt_self (Nat.succ_pos n) (by norm_num : 1 < 10)
        omega
      rw [pyStrAux, ih _ hdiv, Nat.digits_def' (by norm_num : 1 < 10) (Nat.succ_pos n)]
      simp

/-- `Nat.digitChar` is injective on decimal digits. -/
theorem digitChar_inj_lt_ten :
    ∀ a < 10, ∀ b < 10, Nat.digitChar a = Nat.digitChar b → a = b := by decide

theorem map_digitChar_inj :
    ∀ (l1 l2 : List ℕ), (∀ x ∈ l1, x < 10) → (∀ x ∈ l2, x < 10) →
      l1.map Nat.digitChar = l2.map Nat.digitChar → l1 = l2 := by
  intro l1
  induction l1 with
  | nil =>
    intro l2 _ _ h
    cases l2 with
    | nil => rfl
    | cons b t => simp at h
  | cons a t1 ih =>
    intro l2 h1 h2 h
    cases l2 with
    | nil => simp at h
    | cons b t2 =>
      simp only [List.map_cons, List.cons.injEq] at h
      have ha : a < 10 := h1 a (by simp)
      have hb : b < 10 := h2 b (by simp)
      have hab : a = b := digitChar_inj_lt_ten a ha b hb h.1
      have ht : t1 = t2 :=
        ih t2 (fun x hx => h1 x (by simp [hx])) (fun x hx => h2 x (by simp [hx])) h.2
      rw [hab, ht]

/-- `pyStr` is injective on positive naturals (the ids used in actor trees). -/
theorem pyStr_inj_pos {a b : ℕ} (ha : 0 < a) (hb : 0 < b) (h : pyStr a = pyStr b) :
    a = b := by
  unfold pyStr at h
  rw [if_neg (Nat.pos_iff_ne_zero.mp ha), if_neg (Nat.pos_iff_ne_zero.mp hb)] at h
  rw [pyStrAux_eq_digits a a le_rfl, pyStrAux_eq_digits b b le_rfl] at h
  have hlist : ((Nat.digits 10 a).map Nat.digitChar).reverse
      = ((Nat.digits 10 b).map Nat.digitChar).reverse := by
    have := congrArg String.data h
    simpa [List.asString] using this
  have hmap : (Nat.digits 10 a).map Nat.digitChar = (Nat.digits 10 b).map Nat.digitChar :=
    List.reverse_injective hlist
  have hdig : Nat.digits 10 a = Nat.digits 10 b :=
    map_digitChar_inj _ _
      (fun x hx => Nat.digits_lt_base (by norm_num) hx)
      (fun x hx => Nat.digits_lt_base (by norm_num) hx) hmap
  have := congrArg (Nat.ofDigits 10) hdig
  simpa [Nat.ofDigits_digits] using this

/-- A renderable actor: the visibility flag mutated by `standard_tree` via
`actor.SetVisibility(...)`, plus an opaque payload standing for the rest of
the VTK actor object. -/
structure Actor where
  visible : Bool
  tag : ℕ
deriving DecidableEq

/-- One node of the actor tree produced by `standard_tree` in
pv_actors.py: a dict with keys id, parent, visible, name. -/
structure TreeEntry where
  id : String
  parent : String
  visible : Bool
  name : String
deriving DecidableEq

/-- The tree-node dict built for index `idx` in the `standard_tree` list
comprehension (pv_actors.py lines 46-55). -/
def mkEntry (base idx : ℕ) (name : String) : TreeEntry :=
  { id := pyStr (base + 1 + idx)
    parent := if idx = 0 then pyStr 0 else pyStr (base + 1)
    visible := idx == 0
    name := name }

/-- The list comprehension of `standard_tree`, fused with `enumerate`:
`i` is the running index. -/
def treeEntries (base : ℕ) : ℕ → List String → List TreeEntry
  | _, [] => []
  | i, name :: rest => mkEntry base i name :: treeEntries base (i + 1) rest

/-- The `for i, actor in enumerate(actors): actor.SetVisibility(i == 0)`
loop of `standard_tree`; `i` is the running index. -/
def setVisibilities : ℕ → List Actor → List Actor
  | _, [] => []
  | i, a :: rest => { a with visible := i == 0 } :: setVisibilities (i + 1) rest

/-- Embedding of `standard_tree` (pv_actors.py lines 40-55). -/
def standard_tree (actors : List Actor) (actor_names : List String) (base_id : ℕ) :
    List Actor × List String × List TreeEntry :=
  (setVisibilities 0 actors, actor_names, treeEntries base_id 0 actor_names)

/-- One branch of `generate_actors_tree`: if the actor list is present the
group is processed by `standard_tree` (raising TypeError when the id list is
absent, as iterating `enumerate(None)` does); if absent the partial result
is `None`. -/
def treePart (actors : Option (List Actor)) (ids : Option (List String)) (base : ℕ) :
    Except PyErr (Option (List Actor × List String × List TreeEntry)) :=
  match actors with
  | none => Except.ok none
  | some acts =>
    match ids with
    | none => Except.error PyErr.typeError
    | some names => Except.ok (some (standard_tree acts names base))

/-- Embedding of `generate_actors_tree` (pv_actors.py lines 58-81): the
mesh group's `base_id` is `len(pc_actors)` when the point-cloud group is
present, and the final `pc_x + mesh_x` concatenations raise TypeError when
either partial result is `None`. -/
def generate_actors_tree (pc_actors : Option (List Actor)) (pc_actor_ids : Option (List String))
    (mesh_actors : Option (List Actor)) (mesh_actor_ids : Option (List String)) :
    Except PyErr (List Actor × List String × List TreeEntry) :=
  match treePart pc_actors pc_actor_ids 0 with
  | Except.error e => Except.error e
  | Except.ok pcRes =>
    let meshBase : ℕ :=
      match pcRes with
      | some r => r.1.length
      | none => 0
    match treePart mesh_actors mesh_actor_ids meshBase with
    | Except.error e => Except.error e
    | Except.ok meshRes =>
      match pcRes, meshRes with
      | some (a1, i1, t1), some (a2, i2, t2) =>
        Except.ok (a1 ++ a2, i1 ++ i2, t1 ++ t2)
      | _, _ => Except.error PyErr.typeError

theorem treeEntries_length (base : ℕ) (names : List String) :
    ∀ i, (treeEntries base i names).length = names.length := by
  induction names with
  | nil => intro i; simp [treeEntries]
  | cons nm rest ih => intro i; simp [treeEntries, ih (i + 1)]

theorem setVisibilities_length (l : List Actor) :
    ∀ i, (setVisibilities i l).length = l.length := by
  induction l with
  | nil => intro i; simp [setVisibilities]
  | cons a rest ih => intro i; simp [setVisibilities, ih (i + 1)]

theorem treeEntries_getElem? (base : ℕ) (names : List String) :
    ∀ i j, (treeEntries base i names)[j]?
      = names[j]?.map (fun nm => mkEntry base (i + j) nm) := by
  induction names with
  | nil => intro i j; simp [treeEntries]
  | cons nm rest ih =>
    intro i j
    cases j with
    | zero => simp [treeEntries]
    | succ j =>
      have harith : i + (j + 1) = (i + 1) + j := by omega
      simp [treeEntries, ih (i + 1) j, harith]

theorem treeEntries_map_id (base : ℕ) (names : List String) :
    ∀ i, (treeEntries base i names).map TreeEntry.id
      = (List.range' (base + 1 + i) names.length).map pyStr := by
  induction names with
  | nil => intro i; simp [treeEntries]
  | cons nm rest ih =>
    intro i
    have harith : base + 1 + i + 1 = base + 1 + (i + 1) := by omega
    simp [treeEntries, mkEntry, List.range'_succ, ih (i + 1), harith]

theorem treeEntries_countP_visible_of_pos (base : ℕ) (names : List String) :
    ∀ i, 0 < i → (treeEntries base i names).countP (fun e => e.visible) = 0 := by
  induction names with
  | nil => intro i _; simp [treeEntries]
  | cons nm rest ih =>
    intro i hi
    have hvis : (mkEntry base i nm).visible = false := by
      simp [mkEntry]; omega
    rw [treeEntries, List.countP_cons_of_neg _ _ (by simp [hvis]), ih (i + 1) (by omega)]

theorem treeEntries_countP_visible_head (base : ℕ) (nm : String) (rest : List String) :
    (treeEntries base 0 (nm :: rest)).countP (fun e => e.visible) = 1 := by
  have hvis : (mkEntry base 0 nm).visible = true := by simp [mkEntry]
  rw [treeEntries, List.countP_cons_of_pos _ _ (by simp [hvis]),
    treeEntries_countP_visible_of_pos base rest 1 (by omega)]

/-- Evaluation of `generate_actors_tree` when both actor groups and both id
lists are present. -/
theorem generate_actors_tree_some (A B : List Actor) (I J : List String) :
    generate_actors_tree (some A) (some I) (some B) (some J)
      = Except.ok (setVisibilities 0 A ++ setVisibilities 0 B, I ++ J,
          treeEntries 0 0 I ++ treeEntries A.length 0 J) := by
  simp [generate_actors_tree, treePart, standard_tree, setVisibilities_length]

/-- C1 counterexample: for one point-cloud actor and one mesh actor, the
combined tree does not have exactly one visible entry (each group's first
entry is visible, so there are two). -/
theorem generate_actors_tree_one_visible_cex :
    ¬ (∀ acts ids tree,
        generate_actors_tree (some [Actor.mk false 0]) (some ["pc0"])
            (some [Actor.mk false 1]) (some ["mesh0"]) = Except.ok (acts, ids, tree) →
        tree.countP (fun e => e.visible) = 1) := by
  intro h
  have hcount := h _ _ _ rfl
  revert hcount
  decide

/-- C1 (amended): for k point-cloud actors and m mesh actors (k, m >= 1,
with id lists of matching lengths), the combined tree has k + m entries, an
entry is visible exactly when it is the first entry of its group (index 0
or index k), and exactly two entries are visible. -/
theorem generate_actors_tree_visible_count
    (A B : List Actor) (I J : List String) (k m : ℕ)
    (hA : A.length = k) (hI : I.length = k) (hB : B.length = m) (hJ : J.length = m)
    (hk : 1 ≤ k) (hm : 1 ≤ m) :
    ∃ acts ids tree,
      generate_actors_tree (some A) (some I) (some B) (some J)
        = Except.ok (acts, ids, tree) ∧
      tree.length = k + m ∧
      (∀ j, j < k + m →
        (tree[j]?.map TreeEntry.visible = some true ↔ (j = 0 ∨ j = k))) ∧
      tree.countP (fun e => e.visible) = 2 := by
  refine ⟨_, _, _, generate_actors_tree_some A B I J, ?_, ?_, ?_⟩
  · simp [treeEntries_length, hI, hJ]
  · intro j hj
    by_cases hjk : j < k
    · rw [List.getElem?_append_left (by rw [treeEntries_length]; omega)]
      rw [treeEntries_getElem?]
      rw [List.getElem?_eq_getElem (by omega : j < I.length)]
      simp only [Option.map_some, Option.some.injEq, mkEntry, Nat.zero_add]
      constructor
      · intro hvis
        left
        simpa using hvis
      · intro hor
        have hj0 : j = 0 := by omega
        simp [hj0]
    · rw [List.getElem?_append_right (by rw [treeEntries_length]; omega)]
      rw [treeEntries_length, hI, treeEntries_getElem?]
      rw [List.getElem?_eq_getElem (by omega : j - k < J.length)]
      simp only [Option.map_some, Option.some.injEq, mkEntry, Nat.zero_add]
      constructor
      · intro hvis
        right
        have : j - k = 0 := by simpa using hvis
        omega
      · intro hor
        have hjk2 : j - k = 0 := by omega
        simp [hjk2]
  · rw [List.countP_append]
    obtain ⟨nm1, rest1, hI1⟩ : ∃ nm rest, I = nm :: rest := by
      cases I with
      | nil => simp at hI; omega
      | cons a t => exact ⟨a, t, rfl⟩
    obtain ⟨nm2, rest2, hJ1⟩ : ∃ nm rest, J = nm :: rest := by
      cases J with
      | nil => simp at hJ; omega
      | cons a t => exact ⟨a, t, rfl⟩
    rw [hI1, hJ1, treeEntries_countP_visible_head, treeEntries_countP_visible_head]

/-- C1 witness: the amended theorem applied to one concrete point-cloud
actor and one concrete mesh actor. -/
theorem generate_actors_tree_visible_count_witness :
    ([Actor.mk false 0] : List Actor).length = 1 ∧ (["pc0"] : List String).length = 1 ∧
    ([Actor.mk true 1] : List Actor).length = 1 ∧ (["mesh0"] : List String).length = 1 ∧
    (∃ acts ids tree,
      generate_actors_tree (some [Actor.mk false 0]) (some ["pc0"])
          (some [Actor.mk true 1]) (some ["mesh0"])
        = Except.ok (acts, ids, tree) ∧
      tree.length = 1 + 1 ∧
      (∀ j, j < 1 + 1 →
        (tree[j]?.map TreeEntry.visible = some true ↔ (j = 0 ∨ j = 1))) ∧
      tree.countP (fun e => e.visible) = 2) :=
  ⟨rfl, rfl, rfl, rfl,
    generate_actors_tree_visible_count [Actor.mk false 0] [Actor.mk true 1]
      ["pc0"] ["mesh0"] 1 1 rfl rfl rfl rfl (by omega) (by omega)⟩

/-- C7 counterexample: for one point-cloud actor and one mesh actor (k = 1),
the entry at index 1 is the first entry of the mesh group; its parent is
"0" and not the id of the first entry of its group (which is itself, with
id "2"), refuting the claim that every non-first entry's parent equals the
id of the first entry of its group. -/
theorem generate_actors_tree_parent_cex :
    ¬ (∀ acts ids tree,
        generate_actors_tree (some [Actor.mk false 0]) (some ["pc1"])
            (some [Actor.mk false 1]) (some ["mesh1"]) = Except.ok (acts, ids, tree) →
        ∀ j, 0 < j → j < tree.length →
          tree[j]?.map TreeEntry.parent
            = tree[if j < 1 then 0 else 1]?.map TreeEntry.id) := by
  intro h
  have hinst := h _ _ _ rfl 1 (by omega) (by decide)
  revert hinst
  decide

/-- C7 (amended): every tree entry is a record with fields id, parent,
visible and name; the ids are pairwise distinct; the first entry of each
group (index 0 and index k) has parent "0"; and every other entry's parent
equals the id of the first entry of its group. -/
theorem generate_actors_tree_structure
    (A B : List Actor) (I J : List String) (k m : ℕ)
    (hA : A.length = k) (hI : I.length = k) (hB : B.length = m) (hJ : J.length = m)
    (hk : 1 ≤ k) (hm : 1 ≤ m) :
    ∃ acts ids tree,
      generate_actors_tree (some A) (some I) (some B) (some J)
        = Except.ok (acts, ids, tree) ∧
      tree.length = k + m ∧
      (tree.map TreeEntry.id).Nodup ∧
      tree[0]?.map TreeEntry.parent = some (pyStr 0) ∧
      tree[k]?.map TreeEntry.parent = some (pyStr 0) ∧
      (∀ j, 0 < j → j < k →
        tree[j]?.map TreeEntry.parent = tree[0]?.map TreeEntry.id) ∧
      (∀ j, k < j → j < k + m →
        tree[j]?.map TreeEntry.parent = tree[k]?.map TreeEntry.id) := by
  have hT1len : (treeEntries 0 0 I).length = k := by rw [treeEntries_length]; omega
  have hget0 : (treeEntries 0 0 I ++ treeEntries A.length 0 J)[0]?
      = some (mkEntry 0 0 (I.get ⟨0, by omega⟩)) := by
    rw [List.getElem?_append_left (by omega), treeEntries_getElem?,
      List.getElem?_eq_getElem (by omega : 0 < I.length)]
    simp [List.get_eq_getElem]
  have hgetk : (treeEntries 0 0 I ++ treeEntries A.length 0 J)[k]?
      = some (mkEntry A.length 0 (J.get ⟨0, by omega⟩)) := by
    rw [List.getElem?_append_right (by omega), hT1len, treeEntries_getElem?,
      Nat.sub_self, List.getElem?_eq_getElem (by omega : 0 < J.length)]
    simp [List.get_eq_getElem]
  refine ⟨_, _, _, generate_actors_tree_some A B I J, ?_, ?_, ?_, ?_, ?_, ?_⟩
  · simp [treeEntries_length, hI, hJ]
  · rw [List.map_append, treeEntries_map_id, treeEntries_map_id, hA, hI, hJ,
      ← List.map_append]
    apply List.Nodup.map_on
    · intro x hx y hy hxy
      rw [List.mem_append, List.mem_range'_1, List.mem_range'_1] at hx hy
      exact pyStr_inj_pos (by omega) (by omega) hxy
    · rw [List.nodup_append]
      refine ⟨List.nodup_range' _ _, List.nodup_range' _ _, ?_⟩
      intro a ha hb
      rw [List.mem_range'_1] at ha hb
      omega
  · rw [hget0]; simp [mkEntry]
  · rw [hgetk]; simp [mkEntry]
  · intro j hj0 hjk
    rw [List.getElem?_append_left (by omega), treeEntries_getElem?,
      List.getElem?_eq_getElem (by omega : j < I.length), hget0]
    simp [mkEntry]
    omega
  · intro j hjk hjkm
    rw [List.getElem?_append_right (by omega), hT1len, treeEntries_getElem?,
      List.getElem?_eq_getElem (by omega : j - k < J.length), hgetk]
    simp [mkEntry, hA]
    omega

/-- C7 witness: the amended structure theorem applied to one concrete
point-cloud actor and one concrete mesh actor. -/
theorem generate_actors_tree_structure_witness :
    ([Actor.mk false 2] : List Actor).length = 1 ∧ (["p1"] : List String).length = 1 ∧
    ([Actor.mk false 3] : List Actor).length = 1 ∧ (["m1"] : List String).length = 1 ∧
    (∃ acts ids tree,
      generate_actors_tree (some [Actor.mk false 2]) (some ["p1"])
          (some [Actor.mk false 3]) (some ["m1"])
        = Except.ok (acts, ids, tree) ∧
      tree.length = 1 + 1 ∧
      (tree.map TreeEntry.id).Nodup ∧
      tree[0]?.map TreeEntry.parent = some (pyStr 0) ∧
      tree[1]?.map TreeEntry.parent = some (pyStr 0) ∧
      (∀ j, 0 < j → j < 1 →
        tree[j]?.map TreeEntry.parent = tree[0]?.map TreeEntry.id) ∧
      (∀ j, 1 < j → j < 1 + 1 →
        tree[j]?.map TreeEntry.parent = tree[1]?.map TreeEntry.id)) :=
  ⟨rfl, rfl, rfl, rfl,
    generate_actors_tree_structure [Actor.mk false 2] [Actor.mk false 3]
      ["p1"] ["m1"] 1 1 rfl rfl rfl rfl (by omega) (by omega)⟩

/-- C8: whenever at least one of the two actor lists is `None`, the
`totel_actors = pc_actors + mesh_actors` concatenation (or the id-list
iteration before it) raises a TypeError; the call never returns normally. -/
theorem generate_actors_tree_none_typeerror
    (pcA : Option (List Actor)) (pcI : Option (List String))
    (msA : Option (List Actor)) (msI : Option (List String))
    (h : pcA.isNone ∨ msA.isNone) :
    generate_actors_tree pcA pcI msA msI = Except.error PyErr.typeError := by
  rcases h with h | h
  · rw [Option.isNone_iff_eq_none] at h
    subst h
    cases msA with
    | none => simp [generate_actors_tree, treePart]
    | some ma =>
      cases msI with
      | none => simp [generate_actors_tree, treePart]
      | some mi => simp [generate_actors_tree, treePart]
  · rw [Option.isNone_iff_eq_none] at h
    subst h
    cases pcA with
    | none => simp [generate_actors_tree, treePart]
    | some pa =>
      cases pcI with
      | none => simp [generate_actors_tree, treePart]
      | some pcids => simp [generate_actors_tree, treePart]

/-- C8 witness: a `None` point-cloud list with a present mesh list ends in
TypeError. -/
theorem generate_actors_tree_none_typeerror_witness :
    ((none : Option (List Actor)).isNone ∨ (some [Actor.mk true 0]).isNone) ∧
    generate_actors_tree none (some ["x1"]) (some [Actor.mk true 0]) (some ["x2"])
      = Except.error PyErr.typeError :=
  ⟨Or.inl rfl,
    generate_actors_tree_none_typeerror none (some ["x1"])
      (some [Actor.mk true 0]) (some ["x2"]) (Or.inl rfl)⟩

/-- Embedding of `LocalFileManager` (dataset_manager.py): the resolved base
directory and the `_assests` dict. -/
structure LocalFileManager where
  root : String
  assests : List (String × String)
deriving DecidableEq

/-- The possible results of Python attribute access `getattr(manager, name)`
on a `LocalFileManager`: a real attribute value, a bound method, the assets
dict (from the `assets` property or `_assests`), a stored string, or `None`
from the `__getattr__` fallback. -/
inductive AttrVal
  | noneVal
  | strVal (s : String)
  | dictVal (d : List (String × String))
  | methodVal (name : String)
deriving DecidableEq

/-- The method and property names defined on the `LocalFileManager` class;
Python resolves these before falling back to `__getattr__`. -/
def lfmClassAttrs : List String :=
  ["__init__", "__getitem__", "__getattr__", "_to_path",
   "file_url", "dir_url", "assets", "get_assets"]

/-- Embedding of `LocalFileManager.__getitem__` (dataset_manager.py lines
53-54): `self._assests.get(name)`. -/
def lfm_getitem (m : LocalFileManager) (name : String) : Option String :=
  dget m.assests name

/-- Embedding of Python attribute access on a `LocalFileManager` instance:
instance attributes (`_root`, `_assests`) and class attributes (methods and
the `assets` property) are found by normal lookup; only otherwise is the
`__getattr__` fallback `self._assests.get(name)` consulted (dataset_manager.py
lines 56-57). -/
def lfm_getattr (m : LocalFileManager) (name : String) : AttrVal :=
  if name = "_root" then AttrVal.strVal m.root
  else if name = "_assests" then AttrVal.dictVal m.assests
  else if name = "assets" then AttrVal.dictVal m.assests
  else if name ∈ lfmClassAttrs then AttrVal.methodVal name
  else
    match dget m.assests name with
    | some v => AttrVal.strVal v
    | none => AttrVal.noneVal

/-- Embedding of `LocalFileManager.get_assets` (dataset_manager.py lines
107-116): with no keys it returns the whole dict, otherwise a dict mapping
each requested key to `self._assests.get(key)`. -/
def lfm_get_assets (m : LocalFileManager) (keys : List String) :
    List (String × Option String) :=
  if keys = [] then m.assests.map (fun p => (p.1, some p.2))
  else keys.map (fun key => (key, dget m.assests key))

/-- C9 counterexample: on a manager with an empty assets dict, the key
"assets" has not been stored, yet attribute access `manager.assets` resolves
the `assets` property (returning the dict) rather than `None`. -/
theorem lfm_getattr_shadowed_cex :
    ¬ (∀ key, dget (LocalFileManager.mk ("/base") []).assests key = none →
        lfm_getattr (LocalFileManager.mk ("/base") []) key = AttrVal.noneVal) :=
  fun h => absurd (h ("assets") (by decide)) (by decide)

/-- C9 (amended): for every key not stored in the assets dict, `[]` lookup
and `get_assets` return `None` for that key, and attribute access returns
`None` provided the key does not collide with a real attribute, method, or
property name of the class. -/
theorem lfm_missing_key_lookup (m : LocalFileManager) (key : String)
    (hmiss : dget m.assests key = none) :
    lfm_getitem m key = none ∧
    lfm_get_assets m [key] = [(key, none)] ∧
    (key ≠ "_root" → key ≠ "_assests" → key ∉ lfmClassAttrs →
      lfm_getattr m key = AttrVal.noneVal) := by
  refine ⟨hmiss, ?_, ?_⟩
  · simp [lfm_get_assets, hmiss]
  · intro h1 h2 h3
    have h4 : key ≠ "assets" := by
      intro hk
      exact h3 (by rw [hk]; decide)
    simp [lfm_getattr, h1, h2, h3, h4, hmiss]

/-- C9 witness: the amended theorem applied to a concrete manager and a
concrete missing key. -/
theorem lfm_missing_key_lookup_witness :
    dget (LocalFileManager.mk ("/base") [("stored", "v")]).assests ("missing") = none ∧
    (lfm_getitem (LocalFileManager.mk ("/base") [("stored", "v")]) ("missing") = none ∧
     lfm_get_assets (LocalFileManager.mk ("/base") [("stored", "v")]) [("missing")]
        = [(("missing"), none)] ∧
     (("missing" : String) ≠ "_root" → ("missing" : String) ≠ "_assests" →
      ("missing" : String) ∉ lfmClassAttrs →
      lfm_getattr (LocalFileManager.mk ("/base") [("stored", "v")]) ("missing")
        = AttrVal.noneVal)) :=
  ⟨by decide, lfm_missing_key_lookup (LocalFileManager.mk ("/base") [("stored", "v")])
    ("missing") (by decide)⟩

/-- Embedding of `LocalFileManager.file_url` (dataset_manager.py lines
66-82). The `encode` parameter stands for `to_url(self._to_path(...))`:
reading the file and producing its base64 data URL, an external effect. The
swap `file_path, key = key, file_path` when `file_path is None` leaves the
local `key` equal to `None`, so the `if key is not None` store is skipped. -/
def file_url (encode : String → String) (m : LocalFileManager)
    (key : String) (filePath : Option String) : LocalFileManager × String :=
  let swapped : Option String × String :=
    match filePath with
    | none => (none, key)
    | some p => (some key, p)
  let data := encode swapped.2
  match swapped.1 with
  | some k => ({ m with assests := dset m.assests k data }, data)
  | none => (m, data)

/-- C10: with `file_path = None` the key argument is used as the file path,
the manager is unchanged and the encoded data URL is still returned; with
`file_path` present, afterwards the assets dict maps the key to exactly the
returned data URL and every other key is unchanged. -/
theorem file_url_frame (encode : String → String) (m : LocalFileManager)
    (key : String) :
    (file_url encode m key none = (m, encode key)) ∧
    (∀ p : String,
      dget (file_url encode m key (some p)).1.assests key
          = some ((file_url encode m key (some p)).2) ∧
      (file_url encode m key (some p)).2 = encode p ∧
      (∀ k2 : String, k2 ≠ key →
        dget (file_url encode m key (some p)).1.assests k2 = dget m.assests k2)) := by
  refine ⟨rfl, ?_⟩
  intro p
  refine ⟨?_, rfl, ?_⟩
  · simp [file_url, dget_dset_self]
  · intro k2 hk2
    simp [file_url, dget_dset_ne m.assests key k2 (encode p) hk2]

/-- C10 witness: the frame theorem applied to a concrete manager, key, path
and a distinct other key. -/
theorem file_url_frame_witness :
    (file_url id (LocalFileManager.mk ("/r") [("a", "u")]) ("b") none
       = (LocalFileManager.mk ("/r") [("a", "u")], "b")) ∧
    (("a" : String) ≠ "b") ∧
    (dget (file_url id (LocalFileManager.mk ("/r") [("a", "u")]) ("b") (some ("f"))).1.assests
        ("b")
      = some ((file_url id (LocalFileManager.mk ("/r") [("a", "u")]) ("b") (some ("f"))).2)) ∧
    (dget (file_url id (LocalFileManager.mk ("/r") [("a", "u")]) ("b") (some ("f"))).1.assests
        ("a")
      = dget (LocalFileManager.mk ("/r") [("a", "u")]).assests ("a")) :=
  ⟨(file_url_frame id (LocalFileManager.mk ("/r") [("a", "u")]) ("b")).1,
   by decide,
   ((file_url_frame id (LocalFileManager.mk ("/r") [("a", "u")]) ("b")).2 ("f")).1,
   (((file_url_frame id (LocalFileManager.mk ("/r") [("a", "u")]) ("b")).2 ("f")).2.2
      ("a") (by decide))⟩

/-- A 2-D matrix as handled by anndata_preprocess: shape, a sparsity flag
(scipy sparse vs dense), and the stored values. -/
structure Matx where
  rows : ℕ
  cols : ℕ
  sparse : Bool
  data : List (List ℤ)
deriving DecidableEq

/-- Embedding of `scipy.sparse.csr_matrix(m)`: the same values marked
sparse (`m.copy()` on an already-sparse matrix is the identity here since
the embedding is immutable). -/
def csr_matrix (m : Matx) : Matx := { m with sparse := true }

/-- An AnnData object as touched by anndata_preprocess: observation and
variable counts, the main matrix `X`, the obs/var data frames (named
columns), and the layers/obsm/obsp/varm/uns mappings. -/
structure AnnData where
  n_obs : ℕ
  n_vars : ℕ
  X : Matx
  obs : List (String × List ℤ)
  var : List (String × List ℤ)
  layers : List (String × Matx)
  obsm : List (String × Matx)
  obsp : List (String × Matx)
  varm : List (String × Matx)
  uns : List (String × ℤ)
deriving DecidableEq


/-- The reduced AnnData assembled at the end of `anndata_preprocess`
(anndata_preprocess.py lines 41-46): uns/obsp/varm deleted (reset to
empty), `X` set to the counts matrix, layers reduced to X_log1p, obsm
reduced to spatial; obs and var are untouched. -/
def preprocessedOf (adata : AnnData) (Xc Xl spatial : Matx) : AnnData :=
  { adata with
    uns := []
    obsp := []
    varm := []
    X := Xc
    layers := [("X_log1p", Xl)]
    obsm := [("spatial", spatial)] }

/-- The tail of `anndata_preprocess` (anndata_preprocess.py lines 38-47):
read the spatial coordinates (KeyError when absent), then assemble the
reduced object. The `write_h5ad` call is file output and has no effect on
the returned object. -/
def finishPreprocess (adata : AnnData) (skey : String) (Xc Xl : Matx) :
    Except PyErr AnnData :=
  match dget adata.obsm skey with
  | none => Except.error (PyErr.keyError skey)
  | some spatial => Except.ok (preprocessedOf adata Xc Xl spatial)

/-- Embedding of `anndata_preprocess` (anndata_preprocess.py lines 7-47).
The `normalize` parameter stands for the external
`dynamo.pp.normalize_cell_expr_by_size_factors(adata, layers="X",
skip_log=False)` call used when no log1p layer name is given; it is applied
to the AnnData whose `X` was first set to the sparse counts matrix, and the
log1p matrix is then the csr copy of the normalized `X`. Missing layer keys
raise KeyError. -/
def anndata_preprocess (normalize : AnnData → AnnData) (adata : AnnData)
    (ckey : String) (lkey : Option String) (skey : String) : Except PyErr AnnData :=
  match dget adata.layers ckey with
  | none => Except.error (PyErr.keyError ckey)
  | some Xc0 =>
    let Xc := if Xc0.sparse then Xc0 else csr_matrix Xc0
    match lkey with
    | some key =>
      match dget adata.layers key with
      | none => Except.error (PyErr.keyError key)
      | some Xl0 =>
        let Xl := if Xl0.sparse then Xl0 else csr_matrix Xl0
        finishPreprocess adata skey Xc Xl
    | none =>
      let adata1 := normalize { adata with X := Xc }
      let Xl := csr_matrix adata1.X
      finishPreprocess adata1 skey Xc Xl

theorem sparsify_shape (M : Matx) :
    (if M.sparse then M else csr_matrix M).rows = M.rows ∧
    (if M.sparse then M else csr_matrix M).cols = M.cols ∧
    (if M.sparse then M else csr_matrix M).sparse = true := by
  by_cases h : M.sparse <;> simp [csr_matrix, h]

theorem anndata_preprocess_run_some (normalize : AnnData → AnnData) (adata : AnnData)
    (ckey key skey : String) (Mc Ml S : Matx)
    (hc : dget adata.layers ckey = some Mc)
    (hml : dget adata.layers key = some Ml)
    (hs : dget adata.obsm skey = some S) :
    anndata_preprocess normalize adata ckey (some key) skey
      = Except.ok (preprocessedOf adata (if Mc.sparse then Mc else csr_matrix Mc)
          (if Ml.sparse then Ml else csr_matrix Ml) S) := by
  simp [anndata_preprocess, hc, hml, finishPreprocess, hs]

theorem anndata_preprocess_run_none (normalize : AnnData → AnnData) (adata : AnnData)
    (ckey skey : String) (Mc S : Matx)
    (hc : dget adata.layers ckey = some Mc)
    (hn3 : ∀ a, (normalize a).obsm = a.obsm)
    (hs : dget adata.obsm skey = some S) :
    anndata_preprocess normalize adata ckey none skey
      = Except.ok (preprocessedOf
          (normalize { adata with X := if Mc.sparse then Mc else csr_matrix Mc })
          (if Mc.sparse then Mc else csr_matrix Mc)
          (csr_matrix
            (normalize { adata with X := if Mc.sparse then Mc else csr_matrix Mc }).X)
          S) := by
  have hobsm1 : (normalize { adata with X := if Mc.sparse then Mc else csr_matrix Mc }).obsm
      = adata.obsm := hn3 _
  simp [anndata_preprocess, finishPreprocess, hc, hobsm1, hs]

/-- C3: for a valid input (counts and log1p layers of shape (N, G), spatial
coordinates of shape (N, 3), and an external normalization step that
preserves observation count, X shape and obsm on the branch that uses it),
the preprocessed output keeps N observations, its obsm spatial array has
shape (N, 3), and its X and X_log1p matrices are sparse with the same
shape. -/
theorem anndata_preprocess_shapes
    (normalize : AnnData → AnnData) (adata : AnnData)
    (ckey : String) (lkey : Option String) (skey : String) (Mc S : Matx)
    (hc : dget adata.layers ckey = some Mc)
    (hcr : Mc.rows = adata.n_obs) (hcc : Mc.cols = adata.n_vars)
    (hl : ∀ key, lkey = some key →
      ∃ Ml, dget adata.layers key = some Ml ∧ Ml.rows = adata.n_obs ∧
        Ml.cols = adata.n_vars)
    (hs : dget adata.obsm skey = some S) (hsr : S.rows = adata.n_obs) (hsc : S.cols = 3)
    (hn1 : ∀ a, (normalize a).n_obs = a.n_obs)
    (hn2 : ∀ a, (normalize a).X.rows = a.X.rows ∧ (normalize a).X.cols = a.X.cols)
    (hn3 : ∀ a, (normalize a).obsm = a.obsm) :
    ∃ outp, anndata_preprocess normalize adata ckey lkey skey = Except.ok outp ∧
      outp.n_obs = adata.n_obs ∧
      dget outp.obsm ("spatial") = some S ∧ S.rows = adata.n_obs ∧ S.cols = 3 ∧
      outp.X.sparse = true ∧ outp.X.rows = adata.n_obs ∧ outp.X.cols = adata.n_vars ∧
      (∃ L, dget outp.layers ("X_log1p") = some L ∧ L.sparse = true ∧
        L.rows = outp.X.rows ∧ L.cols = outp.X.cols) := by
  obtain ⟨hXr, hXc, hXs⟩ := sparsify_shape Mc
  cases lkey with
  | some key =>
    obtain ⟨Ml, hml, hmlr, hmlc⟩ := hl key rfl
    obtain ⟨hLr, hLc, hLs⟩ := sparsify_shape Ml
    refine ⟨_, anndata_preprocess_run_some normalize adata ckey key skey Mc Ml S hc hml hs,
      rfl, by simp [preprocessedOf, dget], hsr, hsc, ?_, ?_, ?_, ?_⟩
    · simpa [preprocessedOf] using hXs
    · simp only [preprocessedOf]
      rw [hXr, hcr]
    · simp only [preprocessedOf]
      rw [hXc, hcc]
    · refine ⟨_, by simp [preprocessedOf, dget], hLs, ?_, ?_⟩
      · simp only [preprocessedOf]
        rw [hLr, hXr, hmlr, hcr]
      · simp only [preprocessedOf]
        rw [hLc, hXc, hmlc, hcc]
  | none =>
    refine ⟨_, anndata_preprocess_run_none normalize adata ckey skey Mc S hc hn3 hs,
      ?_, by simp [preprocessedOf, dget], hsr, hsc, ?_, ?_, ?_, ?_⟩
    · simp only [preprocessedOf]
      simpa using hn1 { adata with X := if Mc.sparse then Mc else csr_matrix Mc }
    · simpa [preprocessedOf] using hXs
    · simp only [preprocessedOf]
      rw [hXr, hcr]
    · simp only [preprocessedOf]
      rw [hXc, hcc]
    · refine ⟨csr_matrix
          (normalize { adata with X := if Mc.sparse then Mc else csr_matrix Mc }).X,
        by simp [preprocessedOf, dget], by simp [csr_matrix], ?_, ?_⟩
      · simp only [preprocessedOf, csr_matrix]
        rw [(hn2 _).1]
      · simp only [preprocessedOf, csr_matrix]
        rw [(hn2 _).2]

/-- A concrete two-observation AnnData input used by the witnesses. -/
def adataEx : AnnData :=
  { n_obs := 2
    n_vars := 1
    X := Matx.mk 2 1 false [[1], [2]]
    obs := [("cell", [1, 2])]
    var := [("gene", [0])]
    layers := [("X_counts", Matx.mk 2 1 true [[1], [2]]),
               ("X_log1p", Matx.mk 2 1 false [[0], [1]])]
    obsm := [("3d_align_spatial", Matx.mk 2 3 false [[0, 0, 0], [1, 1, 1]])]
    obsp := []
    varm := []
    uns := [("meta", 5)] }

/-- C3 witness: the shape theorem applied to the concrete input, with the
default layer keys and the identity in place of the external normalization. -/
theorem anndata_preprocess_shapes_witness :
    dget adataEx.layers ("X_counts") = some (Matx.mk 2 1 true [[1], [2]]) ∧
    dget adataEx.obsm ("3d_align_spatial")
      = some (Matx.mk 2 3 false [[0, 0, 0], [1, 1, 1]]) ∧
    (∃ outp, anndata_preprocess id adataEx ("X_counts") (some ("X_log1p"))
        ("3d_align_spatial") = Except.ok outp ∧
      outp.n_obs = adataEx.n_obs ∧
      dget outp.obsm ("spatial") = some (Matx.mk 2 3 false [[0, 0, 0], [1, 1, 1]]) ∧
      (Matx.mk 2 3 false [[0, 0, 0], [1, 1, 1]]).rows = adataEx.n_obs ∧
      (Matx.mk 2 3 false [[0, 0, 0], [1, 1, 1]]).cols = 3 ∧
      outp.X.sparse = true ∧ outp.X.rows = adataEx.n_obs ∧ outp.X.cols = adataEx.n_vars ∧
      (∃ L, dget outp.layers ("X_log1p") = some L ∧ L.sparse = true ∧
        L.rows = outp.X.rows ∧ L.cols = outp.X.cols)) :=
  ⟨by decide, by decide,
    anndata_preprocess_shapes id adataEx ("X_counts") (some ("X_log1p"))
      ("3d_align_spatial") (Matx.mk 2 1 true [[1], [2]])
      (Matx.mk 2 3 false [[0, 0, 0], [1, 1, 1]])
      (by decide) (by decide) (by decide)
      (fun key hk => by
        rw [Option.some.injEq] at hk
        subst hk
        exact ⟨Matx.mk 2 1 false [[0], [1]], by decide, by decide, by decide⟩)
      (by decide) (by decide) (by decide)
      (fun a => rfl) (fun a => ⟨rfl, rfl⟩) (fun a => rfl)⟩

/-- C4: the returned AnnData has empty uns, obsp and varm, its layers hold
exactly the key X_log1p, its obsm exactly the key spatial, and obs and var
are unchanged (the external normalization step, used only when no log1p
layer name is given, is assumed to leave obs, var and obsm unchanged). -/
theorem anndata_preprocess_frame
    (normalize : AnnData → AnnData) (adata : AnnData)
    (ckey : String) (lkey : Option String) (skey : String) (Mc S : Matx)
    (hc : dget adata.layers ckey = some Mc)
    (hl : ∀ key, lkey = some key → ∃ Ml, dget adata.layers key = some Ml)
    (hs : dget adata.obsm skey = some S)
    (hn3 : ∀ a, (normalize a).obsm = a.obsm)
    (hnobs : ∀ a, (normalize a).obs = a.obs)
    (hnvar : ∀ a, (normalize a).var = a.var) :
    ∃ outp, anndata_preprocess normalize adata ckey lkey skey = Except.ok outp ∧
      outp.uns = [] ∧ outp.obsp = [] ∧ outp.varm = [] ∧
      outp.layers.map Prod.fst = [("X_log1p" : String)] ∧
      outp.obsm.map Prod.fst = [("spatial" : String)] ∧
      outp.obs = adata.obs ∧ outp.var = adata.var := by
  cases lkey with
  | some key =>
    obtain ⟨Ml, hml⟩ := hl key rfl
    exact ⟨_, anndata_preprocess_run_some normalize adata ckey key skey Mc Ml S hc hml hs,
      rfl, rfl, rfl, by simp [preprocessedOf], by simp [preprocessedOf], rfl, rfl⟩
  | none =>
    refine ⟨_, anndata_preprocess_run_none normalize adata ckey skey Mc S hc hn3 hs,
      rfl, rfl, rfl, by simp [preprocessedOf], by simp [preprocessedOf], ?_, ?_⟩
    · simp only [preprocessedOf]
      simpa using hnobs { adata with X := if Mc.sparse then Mc else csr_matrix Mc }
    · simp only [preprocessedOf]
      simpa using hnvar { adata with X := if Mc.sparse then Mc else csr_matrix Mc }

/-- C4 witness: the frame theorem applied to the concrete input on the
branch with no log1p layer name, with the identity in place of the external
normalization. -/
theorem anndata_preprocess_frame_witness :
    dget adataEx.layers ("X_counts") = some (Matx.mk 2 1 true [[1], [2]]) ∧
    dget adataEx.obsm ("3d_align_spatial")
      = some (Matx.mk 2 3 false [[0, 0, 0], [1, 1, 1]]) ∧
    (∃ outp, anndata_preprocess id adataEx ("X_counts") none ("3d_align_spatial")
        = Except.ok outp ∧
      outp.uns = [] ∧ outp.obsp = [] ∧ outp.varm = [] ∧
      outp.layers.map Prod.fst = [("X_log1p" : String)] ∧
      outp.obsm.map Prod.fst = [("spatial" : String)] ∧
      outp.obs = adataEx.obs ∧ outp.var = adataEx.var) :=
  ⟨by decide, by decide,
    anndata_preprocess_frame id adataEx ("X_counts") none ("3d_align_spatial")
      (Matx.mk 2 1 true [[1], [2]]) (Matx.mk 2 3 false [[0, 0, 0], [1, 1, 1]])
      (by decide) (fun key hk => Option.noConfusion hk) (by decide)
      (fun a => rfl) (fun a => rfl) (fun a => rfl)⟩

/-- The instructive message of the ImportError raised by `morphogenesis`
when the optional dependency spateo is absent (pv_morphogenesis.py lines
19-24). -/
def spateoInstallMsg : String :=
  "You need to install the package `spateo`. \nInstall spateo via `pip install spateo-release`"

/-- The spateo/dynamo library calls sequenced by `morphogenesis`, as
external collaborators: each step transforms the analysis state and may
fail with any Python exception. -/
structure SpateoTdr (σ : Type) where
  cell_directions : σ → Except PyErr σ
  morphofield : σ → Except PyErr σ
  construct_field : σ → Except PyErr σ
  morphopath : σ → Except PyErr σ
  construct_trajectory : σ → Except PyErr σ
  morphofield_acceleration : σ → Except PyErr σ
  morphofield_curvature : σ → Except PyErr σ
  morphofield_curl : σ → Except PyErr σ
  morphofield_torsion : σ → Except PyErr σ

/-- The straight-line body of `morphogenesis` after the import check
(pv_morphogenesis.py lines 26-167): the st.tdr calls in source order, each
failure propagating unmodified; no retry or recovery. -/
def morphoPipeline {σ : Type} (st : SpateoTdr σ) (s0 : σ) : Except PyErr σ :=
  (st.cell_directions s0).bind fun s1 =>
  (st.morphofield s1).bind fun s2 =>
  (st.construct_field s2).bind fun s3 =>
  (st.morphopath s3).bind fun s4 =>
  (st.construct_trajectory s4).bind fun s5 =>
  (st.morphofield_acceleration s5).bind fun s6 =>
  (st.morphofield_curvature s6).bind fun s7 =>
  (st.morphofield_curl s7).bind fun s8 =>
  st.morphofield_torsion s8

/-- Embedding of the error-handling skeleton of `morphogenesis`
(pv_morphogenesis.py lines 10-24): `try: import spateo` guards the whole
body; absence of spateo raises the instructive ImportError, presence hands
control to the unguarded body. -/
def morphogenesisRun {σ : Type} (spateo : Option (SpateoTdr σ)) (s0 : σ) :
    Except PyErr σ :=
  match spateo with
  | none => Except.error (PyErr.importError spateoInstallMsg)
  | some st => morphoPipeline st s0

/-- C5: `morphogenesis` raises the instructive ImportError exactly when
spateo is absent; when spateo is present the result is exactly the
unguarded pipeline of library calls, and a failure of a library call (here:
the second one) propagates unmodified. -/
theorem morphogenesis_import_error_iff {σ : Type} (st : SpateoTdr σ) (s0 : σ) :
    (morphogenesisRun (none : Option (SpateoTdr σ)) s0
      = Except.error (PyErr.importError spateoInstallMsg)) ∧
    (morphogenesisRun (some st) s0 = morphoPipeline st s0) ∧
    (∀ s1 e, st.cell_directions s0 = Except.ok s1 →
      st.morphofield s1 = Except.error e →
      morphogenesisRun (some st) s0 = Except.error e) := by
  refine ⟨rfl, rfl, ?_⟩
  intro s1 e h1 h2
  simp [morphogenesisRun, morphoPipeline, h1, h2, Except.bind]

/-- C5 witness: a pipeline whose mapping step fails shows the import check
passing and the library error propagating unmodified. -/
theorem morphogenesis_import_error_iff_witness :
    (morphogenesisRun (none : Option (SpateoTdr ℕ)) 0
      = Except.error (PyErr.importError spateoInstallMsg)) ∧
    ((SpateoTdr.mk (fun s => Except.ok (s + 1)) (fun _ => Except.error (PyErr.libError ("mapping failed")))
        Except.ok Except.ok Except.ok Except.ok Except.ok Except.ok Except.ok).cell_directions 0
      = Except.ok 1) ∧
    (morphogenesisRun (some (SpateoTdr.mk (fun s => Except.ok (s + 1))
        (fun _ => Except.error (PyErr.libError ("mapping failed")))
        Except.ok Except.ok Except.ok Except.ok Except.ok Except.ok Except.ok)) 0
      = Except.error (PyErr.libError ("mapping failed"))) :=
  ⟨(morphogenesis_import_error_iff (SpateoTdr.mk (fun s => Except.ok (s + 1))
      (fun _ => Except.error (PyErr.libError ("mapping failed")))
      Except.ok Except.ok Except.ok Except.ok Except.ok Except.ok Except.ok) 0).1,
   rfl,
   (morphogenesis_import_error_iff (SpateoTdr.mk (fun s => Except.ok (s + 1))
      (fun _ => Except.error (PyErr.libError ("mapping failed")))
      Except.ok Except.ok Except.ok Except.ok Except.ok Except.ok Except.ok) 0).2.2
     1 (PyErr.libError ("mapping failed")) rfl rfl⟩

/-- The `flats` array of `morphogenesis` (pv_morphogenesis.py lines
148-152): the int-truncated trajectory times (modelled as naturals), made
unique and sorted (`np.unique`), prefixed with 0 (`np.hstack`), filtered to
values at most 3000, and sorted. -/
def flatsOf (t : List (List ℕ)) : List ℕ :=
  let uniq := (t.flatten.dedup).insertionSort (· ≤ ·)
  let withZero := 0 :: uniq
  (withZero.filter (fun x => x ≤ 3000)).insertionSort (· ≤ ·)

/-- `max(flats)` of pv_morphogenesis.py line 153; `flats` always contains
0, so the fold base 0 agrees with Python `max`. -/
def maxFlats (t : List (List ℕ)) : ℕ := (flatsOf t).foldr max 0

/-- The 100-element time vector `np.logspace(0, np.log10(max(flats) + 1),
100) - 1` of pv_morphogenesis.py line 153: entry k is
`10 ^ (log10(max + 1) * k / 99) - 1`. -/
noncomputable def timeVec (t : List (List ℕ)) (k : ℕ) : ℝ :=
  (10 : ℝ) ^ (Real.logb 10 ((maxFlats t : ℝ) + 1) * (k : ℝ) / 99) - 1

/-- C6: the stage time vector is monotonically increasing, and strictly
increasing whenever some trajectory time of value at least 1 survives the
3000 cap (so the log-space upper bound is positive). -/
theorem morphogenesis_time_vec_monotone (t : List (List ℕ)) :
    Monotone (timeVec t) ∧ (1 ≤ maxFlats t → StrictMono (timeVec t)) := by
  have hbase : (1 : ℝ) ≤ (maxFlats t : ℝ) + 1 := by
    have : (0 : ℝ) ≤ (maxFlats t : ℝ) := Nat.cast_nonneg _
    linarith
  have hs : 0 ≤ Real.logb 10 ((maxFlats t : ℝ) + 1) :=
    Real.logb_nonneg (by norm_num) hbase
  constructor
  · intro i j hij
    unfold timeVec
    have hexp : Real.logb 10 ((maxFlats t : ℝ) + 1) * (i : ℝ) / 99
        ≤ Real.logb 10 ((maxFlats t : ℝ) + 1) * (j : ℝ) / 99 := by
      have hij' : (i : ℝ) ≤ (j : ℝ) := Nat.cast_le.mpr hij
      have := mul_le_mul_of_nonneg_left hij' hs
      linarith
    have := Real.rpow_le_rpow_of_exponent_le (by norm_num : (1 : ℝ) ≤ 10) hexp
    linarith
  · intro hmax i j hij
    unfold timeVec
    have hs' : 0 < Real.logb 10 ((maxFlats t : ℝ) + 1) := by
      apply Real.logb_pos (by norm_num)
      have : (1 : ℝ) ≤ (maxFlats t : ℝ) := by exact_mod_cast hmax
      linarith
    have hexp : Real.logb 10 ((maxFlats t : ℝ) + 1) * (i : ℝ) / 99
        < Real.logb 10 ((maxFlats t : ℝ) + 1) * (j : ℝ) / 99 := by
      have hij' : (i : ℝ) < (j : ℝ) := Nat.cast_lt.mpr hij
      have := mul_lt_mul_of_pos_left hij' hs'
      linarith
    have := Real.rpow_lt_rpow_of_exponent_lt (by norm_num : (1 : ℝ) < 10) hexp
    linarith

/-- C6 witness: a concrete trajectory-time input with maximal flat value 5,
for which the time vector is strictly monotone. -/
theorem morphogenesis_time_vec_monotone_witness :
    1 ≤ maxFlats [[5]] ∧ StrictMono (timeVec [[5]]) :=
  ⟨by decide, (morphogenesis_time_vec_monotone [[5]]).2 (by decide)⟩

/-- An element of the `stages_X` list returned by `morphogenesis`: the
initial entry is the obs index list (`source_adata.obs.index.tolist()`),
every later entry is a list of per-cell positions. -/
inductive StageEntry (Pos : Type)
  | header (obsIndex : List String)
  | snap (pts : List Pos)

/-- Whether a `stages_X` entry is a per-cell position snapshot. -/
def isSnap {Pos : Type} : StageEntry Pos → Bool
  | StageEntry.snap _ => true
  | StageEntry.header _ => false

/-- The `for i in range(100)` loop of `morphogenesis`
(pv_morphogenesis.py lines 164-166): at step `i` every current point is
displaced by ODE integration over `time_vec[i]` (the external
`odeint`-based `displace` is a parameter) and the new point list is
appended. `fuel` is the remaining iteration count. -/
def stageIter {Pos : Type} (displace : Pos → ℝ → Pos) (tv : ℕ → ℝ) :
    ℕ → ℕ → List Pos → List (List Pos)
  | _, 0, _ => []
  | i, fuel + 1, pts =>
    let pts2 := pts.map (fun p => displace p (tv i))
    pts2 :: stageIter displace tv (i + 1) fuel pts2

/-- The `stages_X` list built by `morphogenesis` (pv_morphogenesis.py lines
163-167): the obs index list followed by the 100 snapshots of the loop,
starting from the `init_states` of the fate computation. -/
def stagesX {Pos : Type} (displace : Pos → ℝ → Pos) (tv : ℕ → ℝ)
    (obsIndex : List String) (initStates : List Pos) : List (StageEntry Pos) :=
  StageEntry.header obsIndex :: (stageIter displace tv 0 100 initStates).map StageEntry.snap

theorem stageIter_length {Pos : Type} (displace : Pos → ℝ → Pos) (tv : ℕ → ℝ) :
    ∀ fuel i pts, (stageIter displace tv i fuel pts).length = fuel := by
  intro fuel
  induction fuel with
  | zero => intro i pts; rfl
  | succ fuel ih =>
    intro i pts
    simp [stageIter, ih (i + 1)]

/-- C2: for every displacement function, time vector, obs index list and
initial state list (of any size), `stages_X` holds exactly 100 per-cell
position snapshots; its total length is 101 and its head is the obs index
entry. -/
theorem morphogenesis_stage_count {Pos : Type} (displace : Pos → ℝ → Pos)
    (tv : ℕ → ℝ) (obsIndex : List String) (initStates : List Pos) :
    (stagesX displace tv obsIndex initStates).countP (fun e => isSnap e) = 100 ∧
    (stagesX displace tv obsIndex initStates).length = 101 ∧
    (stagesX displace tv obsIndex initStates).head?
      = some (StageEntry.header obsIndex) := by
  refine ⟨?_, ?_, rfl⟩
  · rw [stagesX, List.countP_cons_of_neg _ _ (by simp [isSnap]), List.countP_map]
    have hall : (List.countP ((fun e => isSnap e) ∘ StageEntry.snap)
        (stageIter displace tv 0 100 initStates))
        = (List.countP (fun _ => true) (stageIter displace tv 0 100 initStates)) := by
      apply List.countP_congr
      intro x _
      simp [isSnap, Function.comp]
    rw [hall, congrFun List.countP_true _, stageIter_length]
  · simp [stagesX, stageIter_length]
